import Mathlib

/-!
Shallow embedding of the VideoVoiceCapturer repository
(src/videovoicecapturer/extractor.py and src/videovoicecapturer/cli.py).

Python strings are modelled as `List Char`; `str.isalnum` is modelled over
ASCII by `Char.isAlphanum`, and `str.lower` by `Char.toLower`.  Fallible
Python code is modelled with `Except`; the single Python exception class
`AudioExtractionError` is refined into the error kinds of the distinct
raise sites (the spec's error taxonomy).
-/

namespace VideoVoiceCapturer

/-- Characters kept verbatim by `_sanitize_filename` (extractor.py:152):
`c.isalnum() or c in " -_"`. -/
def keepChar (c : Char) : Bool :=
  c.isAlphanum || c == ' ' || c == '-' || c == '_'

/-- Python whitespace, as stripped by `str.strip()` with no argument. -/
def pySpace (c : Char) : Bool :=
  c == ' ' || c == '\t' || c == '\n' || c == '\r' || c == '\x0b' || c == '\x0c'

/-- Python `str.strip()`: drop whitespace from both ends. -/
def pyStrip (l : List Char) : List Char :=
  ((l.dropWhile pySpace).reverse.dropWhile pySpace).reverse

/-- One iteration of the character loop in `_sanitize_filename`
(extractor.py:151-157).  Note that the Python test `c in "..."` is a
substring-membership test on the one-character string `c`, hence it is true
exactly when `c` is a single dot, and then the three-character string
`"..."` is appended: every single dot expands to three dots. -/
def sanitizeChar (c : Char) : List Char :=
  if keepChar c then [c]
  else if c == '.' then ['.', '.', '.']
  else ['_']

/-- `"".join(safe_chars)` after the loop, then `.strip()`
(extractor.py:150-159). -/
def sanitizeCore (title : List Char) : List Char :=
  pyStrip ((title.map sanitizeChar).flatten)

/-- The length limit of `_sanitize_filename` (extractor.py:161-162):
truncate to 50 characters only when longer than 50. -/
def truncate50 (l : List Char) : List Char :=
  if 50 < l.length then l.take 50 else l

/-- `_sanitize_filename` (extractor.py:147-164): character mapping, join,
strip, truncation to 50, and the `safe_title or "audio"` fallback for an
empty result. -/
def sanitizeFilename (title : List Char) : List Char :=
  if truncate50 (sanitizeCore title) = [] then "audio".data
  else truncate50 (sanitizeCore title)

/-- Tests whether the last character of a list is Python whitespace. -/
def endsPySpace (l : List Char) : Bool :=
  match l.getLast? with
  | some c => pySpace c
  | none => false

/-- Emit a pending run of `n` consecutive dots according to the spec's
words: a run of exactly three dots becomes a literal ellipsis token, any
other run is replaced character-by-character with underscores. -/
def emitDotRun (n : Nat) : List Char :=
  if n = 3 then ['.', '.', '.'] else List.replicate n '_'

/-- Modelled from the spec: the character scan of the sanitization
algorithm as the spec states it (§4.2 step 6), carrying a count of pending
consecutive dots so that runs of exactly three can be recognised. -/
def specScanGo : Nat → List Char → List Char
  | pending, [] => emitDotRun pending
  | pending, c :: rest =>
    if c == '.' then specScanGo (pending + 1) rest
    else emitDotRun pending ++ (if keepChar c then [c] else ['_']) ++ specScanGo 0 rest

/-- Modelled from the spec: C4's stated algorithm: keep alphanumerics,
space, hyphen, underscore; collapse any run of exactly three literal dots
to a literal ellipsis token; replace every other character with a single
underscore; truncate to 50 characters; fall back to the literal string
"audio" if the result is empty.  (To be compared with `sanitizeFilename`,
which embeds the code.) -/
def sanitizeSpecAlg (title : List Char) : List Char :=
  if truncate50 (specScanGo 0 title) = [] then "audio".data
  else truncate50 (specScanGo 0 title)

/-- The per-character rule of the code's sanitizer as the amended claim C4
describes it: each single dot expands to a three-dot ellipsis, alphanumerics
and space, hyphen, underscore are kept, everything else becomes one
underscore. -/
def amendedChar (c : Char) : List Char :=
  if c == '.' then ['.', '.', '.']
  else if keepChar c then [c]
  else ['_']

/-- The concatenation of the per-character expansions, phrased as a fold. -/
def amendedMapped (title : List Char) : List Char :=
  title.foldr (fun c acc => amendedChar c ++ acc) []

/-- The amended description of the code's sanitization algorithm: expand
each character with `amendedChar`, strip whitespace from both ends, take
the first 50 characters, and fall back to "audio" when empty. -/
def sanitizeAmendedAlg (title : List Char) : List Char :=
  if (pyStrip (amendedMapped title)).take 50 = [] then "audio".data
  else (pyStrip (amendedMapped title)).take 50

end VideoVoiceCapturer

namespace VideoVoiceCapturer

/-! ### Helper lemmas about the sanitizer -/

theorem truncate50_length_le (l : List Char) : (truncate50 l).length ≤ 50 := by
  unfold truncate50
  split
  · simp only [List.length_take]
    omega
  · omega

theorem sanitizeFilename_length_le (title : List Char) :
    (sanitizeFilename title).length ≤ 50 := by
  unfold sanitizeFilename
  split
  · decide
  · exact truncate50_length_le _

theorem sanitizeFilename_ne_nil (title : List Char) : sanitizeFilename title ≠ [] := by
  unfold sanitizeFilename
  split
  · decide
  · assumption

theorem mem_sanitizeChar {c d : Char} (h : c ∈ sanitizeChar d) :
    keepChar c = true ∨ c = '.' := by
  unfold sanitizeChar at h
  split at h
  · simp only [List.mem_singleton] at h
    subst h
    left
    assumption
  · split at h
    · right
      simp only [List.mem_cons, List.not_mem_nil, or_false] at h
      rcases h with h | h | h <;> exact h
    · left
      simp only [List.mem_singleton] at h
      subst h
      decide

theorem mem_sanitizeFilename {c : Char} (title : List Char)
    (h : c ∈ sanitizeFilename title) : keepChar c = true ∨ c = '.' := by
  unfold sanitizeFilename at h
  split at h
  · left
    have hall : ∀ x ∈ "audio".data, keepChar x = true := by decide
    exact hall c h
  · have h1 : c ∈ sanitizeCore title := by
      unfold truncate50 at h
      split at h
      · exact List.take_subset _ _ h
      · exact h
    unfold sanitizeCore pyStrip at h1
    rw [List.mem_reverse] at h1
    have h2 := (List.dropWhile_sublist pySpace).subset h1
    rw [List.mem_reverse] at h2
    have h3 := (List.dropWhile_sublist pySpace).subset h2
    rw [List.mem_flatten] at h3
    obtain ⟨l, hl, hcl⟩ := h3
    rw [List.mem_map] at hl
    obtain ⟨d, _, rfl⟩ := hl
    exact mem_sanitizeChar hcl

theorem head?_dropWhile_false (p : Char → Bool) (c : Char) :
    ∀ l : List Char, (l.dropWhile p).head? = some c → p c = false := by
  intro l
  induction l with
  | nil => intro h; simp [List.dropWhile] at h
  | cons a t ih =>
    intro h
    rw [List.dropWhile_cons] at h
    by_cases hp : p a = true
    · rw [if_pos hp] at h
      exact ih h
    · rw [if_neg hp] at h
      simp only [List.head?_cons, Option.some.injEq] at h
      subst h
      exact Bool.not_eq_true _ ▸ hp

theorem dropWhile_eq_pyStrip_append (l : List Char) :
    l.dropWhile pySpace
      = pyStrip l ++ ((l.dropWhile pySpace).reverse.takeWhile pySpace).reverse := by
  have h := List.takeWhile_append_dropWhile pySpace (l.dropWhile pySpace).reverse
  have h2 := congrArg List.reverse h
  rw [List.reverse_append, List.reverse_reverse] at h2
  unfold pyStrip
  exact h2.symm

theorem head?_pyStrip_false {c : Char} (l : List Char)
    (h : (pyStrip l).head? = some c) : pySpace c = false := by
  have happ := dropWhile_eq_pyStrip_append l
  have hhead : (l.dropWhile pySpace).head? = some c := by
    rw [happ, List.head?_append, h]
    rfl
  exact head?_dropWhile_false pySpace c l hhead

theorem dropWhile_eq_self_of_head (p : Char → Bool) (l : List Char)
    (h : ∀ c, l.head? = some c → p c = false) : l.dropWhile p = l := by
  cases l with
  | nil => rfl
  | cons a t =>
    have ha := h a rfl
    rw [List.dropWhile_cons, ha]
    simp

theorem flatten_map_sanitizeChar_of_keep :
    ∀ l : List Char, (∀ c ∈ l, keepChar c = true) → (l.map sanitizeChar).flatten = l := by
  intro l
  induction l with
  | nil => intro _; rfl
  | cons a t ih =>
    intro h
    have ha : sanitizeChar a = [a] := by
      unfold sanitizeChar
      rw [h a (List.mem_cons_self a t)]
      simp
    simp only [List.map_cons, List.flatten_cons, ha,
      ih (fun c hc => h c (List.mem_cons_of_mem a hc))]
    rfl

theorem head?_sanitizeFilename_false {c : Char} (title : List Char)
    (h : (sanitizeFilename title).head? = some c) : pySpace c = false := by
  unfold sanitizeFilename at h
  split at h
  · have ha : ("audio".data).head? = some 'a' := rfl
    rw [ha] at h
    injection h with h
    subst h
    decide
  · unfold truncate50 at h
    split at h
    · rw [List.head?_take, if_neg (by omega)] at h
      unfold sanitizeCore at h
      exact head?_pyStrip_false _ h
    · unfold sanitizeCore at h
      exact head?_pyStrip_false _ h

end VideoVoiceCapturer

namespace VideoVoiceCapturer

/-! ### Claims about the sanitizer (C8, C3, C4) -/

/-- C8: For every input title string, the sanitized filename has length at
most 50 and is never empty (the literal string "audio" is returned when the
sanitized result would be empty). -/
theorem sanitize_length_bounds (title : List Char) :
    0 < (sanitizeFilename title).length ∧ (sanitizeFilename title).length ≤ 50 :=
  ⟨List.length_pos.mpr (sanitizeFilename_ne_nil title), sanitizeFilename_length_le title⟩

/-- C3 counterexample: sanitization is not idempotent on every string: on
the one-character title "." the first pass expands the dot to three dots,
yielding "...", and the second pass expands each of those, yielding nine
dots. -/
theorem sanitize_not_idempotent_cex :
    sanitizeFilename (sanitizeFilename ".".data) ≠ sanitizeFilename ".".data := by
  decide

/-- C3 amended: sanitization is idempotent on every input whose sanitized
result contains no dot and does not end in whitespace (in particular on all
already-clean titles); a dot in the output breaks idempotence because each
dot expands to three dots, and a trailing space (exposed by truncation)
breaks it because the second pass strips it. -/
theorem sanitize_idempotent_amended (title : List Char)
    (hdot : '.' ∉ sanitizeFilename title)
    (hend : endsPySpace (sanitizeFilename title) = false) :
    sanitizeFilename (sanitizeFilename title) = sanitizeFilename title := by
  set t := sanitizeFilename title with ht
  have hkeep : ∀ c ∈ t, keepChar c = true := by
    intro c hc
    rw [ht] at hc
    rcases mem_sanitizeFilename title hc with h | h
    · exact h
    · subst h
      exact absurd hc (ht ▸ hdot)
  have hflat : (t.map sanitizeChar).flatten = t := flatten_map_sanitizeChar_of_keep t hkeep
  have hhead : ∀ c, t.head? = some c → pySpace c = false := by
    intro c hc
    rw [ht] at hc
    exact head?_sanitizeFilename_false title hc
  have hlast : ∀ c, t.reverse.head? = some c → pySpace c = false := by
    intro c hc
    rw [List.head?_reverse] at hc
    unfold endsPySpace at hend
    rw [hc] at hend
    exact hend
  have hstrip : pyStrip t = t := by
    unfold pyStrip
    rw [dropWhile_eq_self_of_head pySpace t hhead,
      dropWhile_eq_self_of_head pySpace t.reverse hlast, List.reverse_reverse]
  have hlen : t.length ≤ 50 := by
    rw [ht]
    exact sanitizeFilename_length_le title
  have htr : truncate50 t = t := by
    unfold truncate50
    rw [if_neg (by omega)]
  have hne : t ≠ [] := by
    rw [ht]
    exact sanitizeFilename_ne_nil title
  have hcore : sanitizeCore t = t := by
    unfold sanitizeCore
    rw [hflat, hstrip]
  unfold sanitizeFilename
  rw [hcore, htr, if_neg hne]

/-- Witness for the amended C3 theorem, at the title "hello world!": its
sanitized form "hello world_" contains no dot and ends in an underscore. -/
theorem sanitize_idempotent_amended_witness :
    sanitizeFilename (sanitizeFilename "hello world!".data)
      = sanitizeFilename "hello world!".data :=
  sanitize_idempotent_amended "hello world!".data (by decide) (by decide)

/-- C4 counterexample: on the title " ." the code strips the leading space
and expands the single dot to three dots, yielding "...", while the spec's
stated algorithm keeps the space, maps the lone dot (a run of one, not
three) to a single underscore, and never strips, yielding " _". -/
theorem sanitize_spec_alg_cex :
    sanitizeFilename " .".data ≠ sanitizeSpecAlg " .".data := by
  decide

/-- C4 amended: for every title string, the sanitized output equals the
result of the following algorithm: expand each single literal dot to a
three-dot ellipsis; keep alphanumerics, space, hyphen, underscore; replace
every other character with a single underscore; strip whitespace from both
ends; truncate to 50 characters; fall back to the literal string "audio" if
the result is empty. -/
theorem sanitize_filename_amended (title : List Char) :
    sanitizeFilename title = sanitizeAmendedAlg title := by
  have hchar : ∀ c, sanitizeChar c = amendedChar c := by
    intro c
    unfold sanitizeChar amendedChar
    by_cases hd : (c == '.') = true
    · have hc : c = '.' := by simpa using hd
      subst hc
      decide
    · by_cases hk : keepChar c = true
      · rw [if_pos hk, if_neg hd, if_pos hk]
      · rw [if_neg hk, if_neg hd, if_neg hd, if_neg hk]
  have hmap : (title.map sanitizeChar).flatten = amendedMapped title := by
    unfold amendedMapped
    induction title with
    | nil => rfl
    | cons a t ih =>
      simp only [List.map_cons, List.flatten_cons, List.foldr_cons, ih, hchar a]
  have htr : truncate50 (pyStrip (amendedMapped title))
      = (pyStrip (amendedMapped title)).take 50 := by
    unfold truncate50
    split
    · rfl
    · rw [List.take_of_length_le (by omega)]
  unfold sanitizeFilename sanitizeAmendedAlg sanitizeCore
  rw [hmap, htr]

end VideoVoiceCapturer

namespace VideoVoiceCapturer

/-! ### Error kinds, URL validation, format normalization, dependency probe -/

/-- The error kinds of the distinct raise sites of `AudioExtractionError`
(the spec's error taxonomy, §7). -/
inductive ExtErr where
  | dependencyMissing
  | invalidURL
  | unsupportedFormat
  | downloadFailed
  | artifactNotFound
  | conversionFailed
deriving DecidableEq

/-- The argument of `_validate_url`: a Python value that is either a string
or not a string (extractor.py:46 checks `isinstance(url, str)`). -/
inductive UrlInput where
  | ofStr (s : List Char)
  | nonString
deriving DecidableEq

/-- Substring containment, modelling Python's `pattern in url`. -/
def containsSub (pat s : List Char) : Bool :=
  s.tails.any (fun t => pat.isPrefixOf t)

/-- The `valid_patterns` list of `_validate_url` (extractor.py:50-55). -/
def validPatterns : List (List Char) :=
  ["youtube.com/watch".data, "youtu.be/".data,
   "youtube.com/shorts/".data, "youtube.com/live/".data]

/-- `_validate_url` (extractor.py:44-61): error when the value is not a
string or is empty (`not url or not isinstance(url, str)`), error when no
pattern occurs as a substring, otherwise success.  Both raise sites produce
the InvalidURL kind. -/
def validateUrl : UrlInput → Except ExtErr Unit
  | .nonString => .error .invalidURL
  | .ofStr s =>
    if s = [] then .error .invalidURL
    else if validPatterns.any (fun p => containsSub p s) then .ok ()
    else .error .invalidURL

/-- Python `str.lower()`, modelled over ASCII character-wise. -/
def pyLower (l : List Char) : List Char :=
  l.map Char.toLower

/-- `format.lower().lstrip(".")` in `extract` (extractor.py:83):
`lstrip(".")` removes every leading dot. -/
def normalizeFormat (f : List Char) : List Char :=
  (pyLower f).dropWhile (fun c => c == '.')

/-- `SUPPORTED_FORMATS = ("wav", "mp3")` (extractor.py:18). -/
def supportedFormats : List (List Char) :=
  ["wav".data, "mp3".data]

/-- The format-sanitization step of `extract` (extractor.py:83-87): the
normalized token must be in SUPPORTED_FORMATS, otherwise
`AudioExtractionError` ("Unsupported format") is raised. -/
def formatStep (f : List Char) : Except ExtErr (List Char) :=
  if normalizeFormat f ∈ supportedFormats then .ok (normalizeFormat f)
  else .error .unsupportedFormat

/-- Models the `click.Choice(["wav", "mp3"], case_sensitive=False)` type of
the `-f` / `--format` option (cli.py:19-24): a token is accepted exactly when
its lowercase form equals one of the declared choices.  `click.Choice`
performs no dot stripping. -/
def cliFormatAccepts (f : List Char) : Bool :=
  decide (pyLower f = "wav".data) || decide (pyLower f = "mp3".data)

/-- The outcomes of the `subprocess.run(["ffmpeg", "-version"], ...)` call
in `_check_dependencies` (extractor.py:27-32) that the method's `except`
clause handles: the process exits with a code, the binary is absent
(`FileNotFoundError`), or the 5-second timeout expires (`TimeoutExpired`).
`ProcRunOutcome` below extends this alphabet with the launch failures the
clause does not handle. -/
inductive ProcResult where
  | exited (code : Nat)
  | fileNotFound
  | timedOut
deriving DecidableEq

/-- `_check_dependencies` (extractor.py:24-35) restricted to the handled
outcomes: with `check=True` a nonzero exit raises `CalledProcessError`;
that, `FileNotFoundError` and `TimeoutExpired` are all caught and yield
`False`; a clean exit yields `True`.  (This restricted form is what
`extract`'s `_check_ffmpeg` precondition consumes; the unrestricted probe
is `checkDependenciesFull`.) -/
def checkDependencies : ProcResult → Bool
  | .exited code => code == 0
  | .fileNotFound => false
  | .timedOut => false

/-- The full outcome alphabet of the `subprocess.run` call in
`_check_dependencies`: besides an exit code, an absent binary
(`FileNotFoundError`) and a timeout (`TimeoutExpired`), launching the
process can fail with another `OSError` — e.g. `PermissionError` when the
resolved binary exists but is not executable — which the `except` clause
at extractor.py:34 does not list. -/
inductive ProcRunOutcome where
  | exited (code : Nat)
  | fileNotFound
  | timedOut
  | otherLaunchError
deriving DecidableEq

/-- An exception that escapes `_check_dependencies` uncaught. -/
inductive PyExc where
  | osError
deriving DecidableEq

/-- `_check_dependencies` (extractor.py:24-35) over the full outcome
alphabet: a clean exit returns `True`; `CalledProcessError` (nonzero exit
under `check=True`), `FileNotFoundError` and `TimeoutExpired` are caught
and return `False`; any other launch failure (such as `PermissionError`)
is not caught and propagates out of the method. -/
def checkDependenciesFull : ProcRunOutcome → Except PyExc Bool
  | .exited code => .ok (code == 0)
  | .fileNotFound => .ok false
  | .timedOut => .ok false
  | .otherLaunchError => .error .osError

/-- The handled outcomes embed into the full alphabet. -/
def ProcResult.toRun : ProcResult → ProcRunOutcome
  | .exited code => .exited code
  | .fileNotFound => .fileNotFound
  | .timedOut => .timedOut

end VideoVoiceCapturer

namespace VideoVoiceCapturer

/-! ### Claims C5, C6, C7, C10 -/

deriving instance DecidableEq for Except

/-- C5 counterexample: the token ".mp3" is accepted by the single-item
extractor's normalization (which strips the leading dot) but rejected by
the CLI `-f` / `--format` option's `click.Choice`, which is only
case-insensitive; so leading-dot tokens are not accepted by both. -/
theorem format_cli_dot_cex :
    formatStep ".mp3".data = .ok "mp3".data ∧ cliFormatAccepts ".mp3".data = false := by
  decide

/-- C5 amended: tokens differing only by case (equal lowercase forms) are
treated identically by both the extractor's format normalization and the
CLI option; a leading dot is tolerated by the extractor's normalization but
any token starting with a dot is rejected by the CLI option; and the
extractor fails with UnsupportedFormat exactly when the normalized token is
not in {wav, mp3}. -/
theorem format_tolerance (f g : List Char) :
    (pyLower f = pyLower g →
      formatStep f = formatStep g ∧ cliFormatAccepts f = cliFormatAccepts g) ∧
    formatStep ('.' :: f) = formatStep f ∧
    cliFormatAccepts ('.' :: f) = false ∧
    (formatStep f = .error .unsupportedFormat ↔ normalizeFormat f ∉ supportedFormats) := by
  have hcons : pyLower ('.' :: f) = '.' :: pyLower f := rfl
  refine ⟨?_, ?_, ?_, ?_⟩
  · intro h
    constructor
    · unfold formatStep normalizeFormat
      rw [h]
    · unfold cliFormatAccepts
      rw [h]
  · have h : normalizeFormat ('.' :: f) = normalizeFormat f := by
      unfold normalizeFormat
      rw [hcons, List.dropWhile_cons]
      simp
    unfold formatStep
    rw [h]
  · have hw : "wav".data = 'w' :: "av".data := rfl
    have hm : "mp3".data = 'm' :: "p3".data := rfl
    unfold cliFormatAccepts
    rw [hcons, hw, hm]
    simp
  · unfold formatStep
    split
    · rename_i hmem
      simp [hmem]
    · rename_i hmem
      simp [hmem]

/-- Witness for the amended C5 theorem: the case-variant "WAV" is treated
like "wav" by the extractor's format step. -/
theorem format_tolerance_witness :
    formatStep "WAV".data = formatStep "wav".data :=
  ((format_tolerance "WAV".data "wav".data).1 (by decide)).1

theorem dropWhile_dot_replicate (k : Nat) (v : List Char)
    (hv : v.dropWhile (fun c => c == '.') = v) :
    (List.replicate k '.' ++ v).dropWhile (fun c => c == '.') = v := by
  induction k with
  | zero => simpa using hv
  | succ n ih =>
    rw [List.replicate_succ, List.cons_append, List.dropWhile_cons]
    simpa using ih

/-- C10: format normalization in `extract` strips every leading dot, not
just one: for every count k of leading dots and every case-variant u of an
accepted base token, the input of k dots followed by u is accepted and
normalizes to the lowercase base token. -/
theorem format_strips_all_leading_dots (k : Nat) (u : List Char)
    (h : pyLower u = "wav".data ∨ pyLower u = "mp3".data) :
    formatStep (List.replicate k '.' ++ u) = .ok (pyLower u) := by
  have hrep : List.map Char.toLower (List.replicate k '.') = List.replicate k '.' := by
    rw [List.map_replicate]
    rfl
  have hv : (pyLower u).dropWhile (fun c => c == '.') = pyLower u := by
    rcases h with h | h <;> rw [h] <;> decide
  have hnorm : normalizeFormat (List.replicate k '.' ++ u) = pyLower u := by
    show (pyLower (List.replicate k '.' ++ u)).dropWhile (fun c => c == '.') = pyLower u
    unfold pyLower
    rw [List.map_append, hrep]
    exact dropWhile_dot_replicate k _ hv
  unfold formatStep
  rw [hnorm]
  rcases h with h | h <;> rw [h] <;> decide

/-- Witness for C10 at two leading dots and the mixed-case token "WaV". -/
theorem format_strips_all_leading_dots_witness :
    formatStep (List.replicate 2 '.' ++ "WaV".data) = .ok (pyLower "WaV".data) :=
  format_strips_all_leading_dots 2 "WaV".data (Or.inl (by decide))

/-- C6: URL validation succeeds exactly on string inputs containing one of
the four accepted platform patterns (canonical watch link, short link,
shorts link, live link) as a substring, and every rejected input
(non-string, empty string, unrelated-domain URL, arbitrary text) fails
with the InvalidURL error. -/
theorem validate_url_characterization (inp : UrlInput) :
    (validateUrl inp = .ok () ↔
      ∃ s, inp = .ofStr s ∧ validPatterns.any (fun p => containsSub p s) = true) ∧
    (validateUrl inp ≠ .ok () → validateUrl inp = .error .invalidURL) := by
  constructor
  · cases inp with
    | nonString =>
      constructor
      · intro h
        exact Except.noConfusion h
      · rintro ⟨s, hs, -⟩
        cases hs
    | ofStr s =>
      by_cases hempty : s = []
      · subst hempty
        constructor
        · intro h
          simp only [validateUrl] at h
          simp at h
        · rintro ⟨t, ht, hpat⟩
          injection ht with ht
          subst ht
          exact absurd hpat (by decide)
      · constructor
        · intro h
          refine ⟨s, rfl, ?_⟩
          simp only [validateUrl] at h
          rw [if_neg hempty] at h
          by_cases hp : validPatterns.any (fun p => containsSub p s) = true
          · exact hp
          · rw [if_neg hp] at h
            exact Except.noConfusion h
        · rintro ⟨t, ht, hpat⟩
          injection ht with ht
          subst ht
          simp only [validateUrl]
          rw [if_neg hempty, if_pos hpat]
  · intro hne
    cases inp with
    | nonString => rfl
    | ofStr s =>
      simp only [validateUrl] at hne ⊢
      by_cases hempty : s = []
      · rw [if_pos hempty]
      · rw [if_neg hempty]
        by_cases hp : validPatterns.any (fun p => containsSub p s) = true
        · rw [if_neg hempty, if_pos hp] at hne
          exact absurd rfl hne
        · rw [if_neg hp]

/-- Witness for C6 at a short-link URL, via the characterization. -/
theorem validate_url_characterization_witness :
    validateUrl (.ofStr "https://youtu.be/dQw4w9WgXcQ".data) = .ok () :=
  (validate_url_characterization _).1.mpr ⟨_, rfl, by decide⟩

/-- On the handled outcomes the restricted probe returns true exactly on a
clean exit (helper for the restricted model that `extract` consumes). -/
theorem check_dependencies_characterization (r : ProcResult) :
    checkDependencies r = true ↔ r = .exited 0 := by
  cases r <;> simp [checkDependencies]

/-- The restricted probe agrees with the full probe on every handled
outcome. -/
theorem check_dependencies_toRun (r : ProcResult) :
    checkDependenciesFull r.toRun = .ok (checkDependencies r) := by
  cases r <;> rfl

/-- C7 counterexample: a launch failure other than an absent binary — e.g.
`PermissionError` when the resolved ffmpeg binary exists but is not
executable — is not in the `except` clause at extractor.py:34, so the
probe propagates the exception instead of returning false, contradicting
"returns false — never raising an exception — on any launch failure". -/
theorem check_dependencies_uncaught_cex :
    checkDependenciesFull .otherLaunchError = .error .osError := by
  rfl

/-- C7 amended: the dependency probe returns true iff the transcoder
process exits cleanly within the timeout; an absent binary
(FileNotFoundError), a nonzero exit (CalledProcessError under check=True)
and a timeout (TimeoutExpired) are caught and return false without
raising; but a launch failure outside those kinds (such as
PermissionError) is not caught and propagates as an exception instead of
returning false. -/
theorem check_dependencies_full_characterization (r : ProcRunOutcome) :
    (checkDependenciesFull r = .ok true ↔ r = .exited 0) ∧
    (checkDependenciesFull r = .ok false ↔
      r = .fileNotFound ∨ r = .timedOut ∨ ∃ c, c ≠ 0 ∧ r = .exited c) ∧
    (checkDependenciesFull r = .error .osError ↔ r = .otherLaunchError) := by
  cases r <;> simp [checkDependenciesFull]

/-- Witness for the amended C7 theorem at a clean exit and at a nonzero
exit. -/
theorem check_dependencies_full_witness :
    checkDependenciesFull (.exited 0) = .ok true ∧
    checkDependenciesFull (.exited 1) = .ok false :=
  ⟨((check_dependencies_full_characterization _).1).mpr rfl,
   ((check_dependencies_full_characterization _).2.1).mpr
     (Or.inr (Or.inr ⟨1, by omega, rfl⟩))⟩

end VideoVoiceCapturer

namespace VideoVoiceCapturer

/-! ### The single-item extractor `extract` (extractor.py:63-145) -/

/-- The outcome of the `ydl.extract_info(url, download=True)` call
(extractor.py:107-117): either the downloader's info dictionary, whose
optional title is read by `info.get('title', 'audio')`, or one of the three
caught exception kinds (`DownloadError`, `ExtractorError`, any other
exception), each re-raised as `AudioExtractionError`. -/
inductive DlResult where
  | dlInfo (title : Option (List Char))
  | downloadError (msg : List Char)
  | extractorError (msg : List Char)
  | otherError (msg : List Char)
deriving DecidableEq

/-- The outcome of the `_convert_audio` call (extractor.py:166-187): a
successful conversion, a nonzero ffmpeg exit (raises `RuntimeError`), the
300-second timeout (`TimeoutExpired`), or a missing output file after a
reported success (raises `RuntimeError`).  All three failure outcomes are
caught by the `except Exception` in `extract` (extractor.py:135-136). -/
inductive ConvResult where
  | converted
  | exitNonzero (msg : List Char)
  | procTimeout
  | outputMissing
deriving DecidableEq

/-- The external world visible to one `extract` call: the ffmpeg probe
outcome, the downloader outcome, which `temp_audio.<ext>` files exist, and
the transcoder outcome. -/
structure ExtractEnv where
  ffmpeg : ProcResult
  dl : DlResult
  tempExt : List Char → Bool
  conv : ConvResult

/-- The fixed extension probe order of `extract` (extractor.py:121). -/
def tempExtensions : List (List Char) :=
  [".mp4".data, ".webm".data, ".m4a".data, ".mp3".data, ".ogg".data]

/-- `extract` (extractor.py:63-145), with the external effects supplied by
an `ExtractEnv`.  The steps mirror the source: `_check_ffmpeg`,
`_validate_url`, format sanitization, download, temp-file lookup in the
fixed extension order, conversion, and finally `return str(output_file)`.
The path join `self.output_dir / f"{safe_title}.{format}"` is modelled as
concatenation with a slash separator.  The result type mirrors the
`Optional[str]` annotation: a normal completion carries an optional path.
The `finally` cleanup (extractor.py:137-143) removes the temp file and
swallows `OSError`, so it never changes the returned value and is not
modelled. -/
def extract (env : ExtractEnv) (outputDir : List Char) (url : UrlInput)
    (format : List Char) : Except ExtErr (Option (List Char)) :=
  if checkDependencies env.ffmpeg then
    match validateUrl url with
    | .error e => .error e
    | .ok _ =>
      match formatStep format with
      | .error e => .error e
      | .ok fmt =>
        match env.dl with
        | .downloadError _ => .error .downloadFailed
        | .extractorError _ => .error .downloadFailed
        | .otherError _ => .error .downloadFailed
        | .dlInfo titleOpt =>
          match tempExtensions.find? (fun e => env.tempExt e) with
          | none => .error .artifactNotFound
          | some _ =>
            match env.conv with
            | .converted =>
              .ok (some (outputDir ++ '/' ::
                (sanitizeFilename (titleOpt.getD "audio".data) ++ '.' :: fmt)))
            | _ => .error .conversionFailed
  else .error .dependencyMissing

end VideoVoiceCapturer

namespace VideoVoiceCapturer

/-! ### Claim C9 -/

/-- C9: `extract` never returns None despite its `Optional[str]`
annotation: every execution either raises (an error value) or completes
with `some` final artifact path; no execution completes normally with
`none`. -/
theorem extract_never_none (env : ExtractEnv) (outputDir : List Char)
    (url : UrlInput) (format : List Char) (v : Option (List Char))
    (h : extract env outputDir url format = .ok v) : ∃ p, v = some p := by
  unfold extract at h
  split at h
  · split at h
    · exact Except.noConfusion h
    · split at h
      · exact Except.noConfusion h
      · split at h
        · exact Except.noConfusion h
        · exact Except.noConfusion h
        · exact Except.noConfusion h
        · split at h
          · exact Except.noConfusion h
          · split at h
            · injection h with h
              exact ⟨_, h.symm⟩
            · exact Except.noConfusion h
  · exact Except.noConfusion h

/-- A concrete successful environment: ffmpeg present, a download that
reports the title "Test", a temp file with the ".mp4" extension, and a
clean conversion. -/
def envOk : ExtractEnv :=
  ⟨.exited 0, .dlInfo (some "Test".data), fun e => e == ".mp4".data, .converted⟩

/-- Witness for C9: a successful run on a watch URL returns some path. -/
theorem extract_never_none_witness :
    ∃ p, (some "out/Test.wav".data : Option (List Char)) = some p :=
  extract_never_none envOk "out".data (.ofStr "https://youtube.com/watch?v=x".data)
    "wav".data (some "out/Test.wav".data) (by decide)

end VideoVoiceCapturer

namespace VideoVoiceCapturer

/-! ### The batch orchestrator (cli.py:101-162)

The orchestrator is embedded over abstract per-URL outcomes: each entry of
the input list is a pair of the URL and the result its `extract` call
produces (`.ok path` or `.error message`, the message being `str(e)`).
For `_process_parallel` the list is taken in the order
`concurrent.futures.as_completed` yields the finished tasks, i.e. in
completion order. -/

/-- The `results` dictionary of the CLI (cli.py:103, 127): the "success"
and "failed" lists, each of (url, value) pairs, appended in the order
outcomes are observed. -/
structure BatchResults where
  success : List (String × String)
  failed : List (String × String)
deriving DecidableEq

/-- One URL together with the outcome its extraction produces. -/
abbrev UrlOutcome := String × Except String String

/-- The loop body of `_process_sequential` (cli.py:105-120): successes and
failures are appended as they happen; on a failure with
`continue_on_error` false the accumulated dictionary is abandoned and the
exception is re-raised (`raise` on cli.py:120), which propagates out of
the function. -/
def seqGo (acc : BatchResults) (coe : Bool) : List UrlOutcome → Except String BatchResults
  | [] => .ok acc
  | (u, .ok p) :: rest => seqGo ⟨acc.success ++ [(u, p)], acc.failed⟩ coe rest
  | (u, .error e) :: rest =>
    if coe then seqGo ⟨acc.success, acc.failed ++ [(u, e)]⟩ coe rest
    else .error e

/-- `_process_sequential` (cli.py:101-122): process the URLs strictly in
input order starting from empty result lists. -/
def processSequential (items : List UrlOutcome) (coe : Bool) : Except String BatchResults :=
  seqGo ⟨[], []⟩ coe items

/-- The `as_completed` loop of `_process_parallel` (cli.py:145-160):
outcomes are recorded in completion order; on a failure with
`continue_on_error` false the remaining futures are cancelled and the loop
`break`s, so no further completion is read — the accumulated dictionary at
that point is returned (tasks already running do finish during executor
shutdown, but their results are never read). -/
def parGo (acc : BatchResults) (coe : Bool) : List UrlOutcome → BatchResults
  | [] => acc
  | (u, .ok p) :: rest => parGo ⟨acc.success ++ [(u, p)], acc.failed⟩ coe rest
  | (u, .error e) :: rest =>
    if coe then parGo ⟨acc.success, acc.failed ++ [(u, e)]⟩ coe rest
    else ⟨acc.success, acc.failed ++ [(u, e)]⟩

/-- `_process_parallel` (cli.py:125-162), as a function of the
completion-ordered outcome list. -/
def processParallel (completions : List UrlOutcome) (coe : Bool) : BatchResults :=
  parGo ⟨[], []⟩ coe completions

/-- The completion-ordered prefix up to and including the first failure
(everything the parallel loop consumes before it breaks). -/
def stopAtFirstFailure : List UrlOutcome → List UrlOutcome
  | [] => []
  | (u, .ok p) :: rest => (u, .ok p) :: stopAtFirstFailure rest
  | (u, .error e) :: _ => [(u, .error e)]

/-- How many outcomes the report holds for a given URL. -/
def outcomeCount (r : BatchResults) (u : String) : Nat :=
  (r.success.filter (fun x => x.1 == u)).length
    + (r.failed.filter (fun x => x.1 == u)).length

end VideoVoiceCapturer

namespace VideoVoiceCapturer

/-! ### Claims C1 and C2 -/

/-- Two URLs submitted together with jobs ≥ 2, so both are dispatched
immediately; in completion order urlA fails first and urlB (in flight)
completes second. -/
def parEx : List UrlOutcome :=
  [("urlA", .error "boom"), ("urlB", .ok "b.wav")]

/-- C1 counterexample: with continueOnError false, urlB is dispatched
before the first observed failure (both tasks start at once with two
workers) and is allowed to finish, but the loop breaks on urlA's failure
and urlB's outcome is never recorded: the final report holds no outcome
for urlB, where the claim requires exactly one. -/
theorem parallel_drops_inflight_cex :
    parEx.any (fun x => x.1 == "urlB") = true ∧
    outcomeCount (processParallel parEx false) "urlB" = 0 := by
  decide

/-- C1 amended: in parallel mode with continueOnError false the
orchestrator stops consuming completions at the first failure: the final
report equals the report of exactly the completions observed up to and
including the first failure (in completion order), one outcome each —
tasks still in flight are allowed to finish but their outcomes are
dropped, and tasks never started are omitted. -/
theorem parallel_stops_at_first_failure (cs : List UrlOutcome) :
    processParallel cs false = processParallel (stopAtFirstFailure cs) true ∧
    (processParallel cs false).success.length + (processParallel cs false).failed.length
      = (stopAtFirstFailure cs).length := by
  have hstop : ∀ (cs : List UrlOutcome) (acc : BatchResults),
      parGo acc false cs = parGo acc true (stopAtFirstFailure cs) := by
    intro cs
    induction cs with
    | nil => intro acc; rfl
    | cons x rest ih =>
      intro acc
      obtain ⟨u, r⟩ := x
      cases r with
      | ok p =>
        unfold stopAtFirstFailure parGo
        exact ih _
      | error e =>
        unfold stopAtFirstFailure parGo
        rfl
  have hcount : ∀ (cs : List UrlOutcome) (acc : BatchResults),
      (parGo acc true cs).success.length + (parGo acc true cs).failed.length
        = acc.success.length + acc.failed.length + cs.length := by
    intro cs
    induction cs with
    | nil => intro acc; simp [parGo]
    | cons x rest ih =>
      intro acc
      obtain ⟨u, r⟩ := x
      cases r with
      | ok p =>
        unfold parGo
        rw [ih]
        simp
        omega
      | error e =>
        unfold parGo
        rw [if_pos rfl, ih]
        simp
        omega
  constructor
  · exact hstop cs ⟨[], []⟩
  · unfold processParallel
    rw [hstop cs ⟨[], []⟩, hcount (stopAtFirstFailure cs) ⟨[], []⟩]
    simp

/-- A sequential batch of three URLs whose second item fails. -/
def seqEx : List UrlOutcome :=
  [("url1", .ok "a.wav"), ("url2", .error "boom"), ("url3", .ok "c.wav")]

/-- C2 counterexample: with continueOnError false and a failing second
item, `_process_sequential` does not yield a report at all: after
appending the failure it re-raises the exception (cli.py:120), so the
caller receives the propagated exception instead of a dictionary with the
2 attempted entries, and the summary is never rendered. -/
theorem sequential_raises_cex :
    processSequential seqEx false = .error "boom" := by
  decide

/-- C2 amended: in sequential mode with continueOnError false, a batch
whose first item succeeds and whose second item fails stops immediately
(later items are never attempted): the success and the failure are
appended to the internal dictionary, but the function re-raises the second
item's exception, so the caller is signaled by the propagated exception
and no report of the 2 attempted entries is returned. -/
theorem sequential_stops_and_raises (u1 p1 u2 e2 : String)
    (rest : List UrlOutcome) :
    processSequential ((u1, .ok p1) :: (u2, .error e2) :: rest) false = .error e2 := by
  unfold processSequential seqGo
  rfl

end VideoVoiceCapturer
